import Mathlib

/-!
Verification of the reversible file-overlay installer (OptiScaler install /
uninstall / backup-ledger / config-patcher core of `protonfixes/util.py`).

The repository ships the unit tests (`optiscaler_test.py`) and a caller
(`gamefixes-steam/1582650.py`) of the core, but not the core module itself,
so the operations below are modelled from the design specification, using the
concrete file names, backup suffix and allow-list fixed by the unit tests.

The file system visible to the installer is shallowly embedded: a target
directory is a finite association list of (file name, byte content) pairs
together with an optional `plugins` subdirectory and an optional
`plugins.optiscaler.bak` backup subdirectory; file contents are opaque
strings.
-/

namespace OptiScaler

/-- A directory of plain files: an association list from file name to byte
content (bytes modelled as an opaque string). Earlier entries shadow later
ones, matching a real directory where each name occurs once. -/
abbrev Files := List (String × String)

/-- Look up the content of file `n`, `none` when no such file exists. -/
def lookupFile (fs : Files) (n : String) : Option String :=
  match fs with
  | [] => none
  | (m, c) :: rest => if m = n then some c else lookupFile rest n

/-- Write content `c` to file `n`: overwrite the first entry named `n` in
place, or append a new entry when the file does not exist. -/
def writeFile (fs : Files) (n : String) (c : String) : Files :=
  match fs with
  | [] => [(n, c)]
  | (m, b) :: rest => if m = n then (n, c) :: rest else (m, b) :: writeFile rest n c

/-- Delete every entry named `n`. -/
def removeFile (fs : Files) (n : String) : Files :=
  match fs with
  | [] => []
  | (m, b) :: rest => if m = n then removeFile rest n else (m, b) :: removeFile rest n

/-- `strEndsWith s suf` holds when `suf` is a suffix of `s`, the semantics of
a trailing-wildcard glob pattern over file names. -/
def strEndsWith (s suf : String) : Bool := decide (suf.data <:+ s.data)

/-- Modelled from the spec: the reserved backup marker of `protonfixes/util.py`
(absent from src); the unit tests fix it as `.optiscaler.bak`. -/
def BAK_SUFFIX : String := ".optiscaler.bak"

/-- Modelled from the spec: the deterministic backup-naming convention,
appending the reserved suffix to the original file name. -/
def bakName (n : String) : String := n ++ BAK_SUFFIX

/-- A file name matches the reserved backup-suffix convention. -/
def isBakName (n : String) : Bool := strEndsWith n BAK_SUFFIX

/-- A target directory: its plain files, an optional live `plugins`
subdirectory and an optional plugin-directory backup. -/
structure FSDir where
  files : Files
  plugins : Option Files
  pluginsBak : Option Files
deriving DecidableEq

/-- Modelled from the spec: `_backup_file` of `protonfixes/util.py` (absent
from src), acting on the plain files of a directory. If the file does not
exist, fail; if a backup for it already exists, fail and leave both files
untouched; otherwise copy the file to its backup name and succeed. -/
def backupFiles (fs : Files) (n : String) : Bool × Files :=
  match lookupFile fs n with
  | none => (false, fs)
  | some c =>
    match lookupFile fs (bakName n) with
    | some _ => (false, fs)
    | none => (true, writeFile fs (bakName n) c)

/-- Modelled from the spec: `_backup_file` of `protonfixes/util.py` (absent
from src), lifted to a target directory. -/
def backup_file (d : FSDir) (n : String) : Bool × FSDir :=
  ((backupFiles d.files n).1, { d with files := (backupFiles d.files n).2 })

/-- Modelled from the spec: `_restore_backup` of `protonfixes/util.py`
(absent from src), acting on the plain files of a directory. If no backup
exists, fail; otherwise overwrite the original name with the backup content
(creating it when absent), delete the backup and succeed. -/
def restoreFiles (fs : Files) (n : String) : Bool × Files :=
  match lookupFile fs (bakName n) with
  | none => (false, fs)
  | some c => (true, removeFile (writeFile fs n c) (bakName n))

/-- Modelled from the spec: `_restore_backup` of `protonfixes/util.py`
(absent from src), lifted to a target directory. -/
def restore_backup (d : FSDir) (n : String) : Bool × FSDir :=
  ((restoreFiles d.files n).1, { d with files := (restoreFiles d.files n).2 })

/-- A parsed configuration section: an ordered list of key/value string
pairs, unique keys (the shape `configparser` produces). -/
abbrev IniSection := List (String × String)

/-- A parsed configuration file: an ordered list of named sections. -/
abbrev Ini := List (String × IniSection)

/-- A caller-supplied override set: section name to key/value pairs. -/
abbrev Overrides := List (String × List (String × String))

/-- Set key `k` to value `v` in a section: replace the first entry named `k`
in place, or append a new entry when the key is absent. -/
def setKey (sec : IniSection) (k v : String) : IniSection :=
  match sec with
  | [] => [(k, v)]
  | (a, b) :: rest => if a = k then (k, v) :: rest else (a, b) :: setKey rest k v

/-- Apply a list of key/value assignments to a section, left to right. -/
def setKeys (sec : IniSection) (kvs : List (String × String)) : IniSection :=
  kvs.foldl (fun acc p => setKey acc p.1 p.2) sec

/-- Merge one override section into a parsed file: update the section in
place when it exists, or append a fresh section at the end. -/
def setSection (ini : Ini) (s : String) (kvs : List (String × String)) : Ini :=
  match ini with
  | [] => [(s, setKeys [] kvs)]
  | (a, sec) :: rest =>
    if a = s then (s, setKeys sec kvs) :: rest else (a, sec) :: setSection rest s kvs

/-- Modelled from the spec: the merge performed by `_modify_optiscaler_ini`
of `protonfixes/util.py` (absent from src) on the parsed file: each override
section is merged in order, creating missing sections and setting each
key verbatim. -/
def applyOverrides (ini : Ini) (ov : Overrides) : Ini :=
  ov.foldl (fun acc p => setSection acc p.1 p.2) ini

/-- Read a key from a section. -/
def getKey (sec : IniSection) (k : String) : Option String :=
  match sec with
  | [] => none
  | (a, b) :: rest => if a = k then some b else getKey rest k

/-- Read a section from a parsed file. -/
def getSection (ini : Ini) (s : String) : Option IniSection :=
  match ini with
  | [] => none
  | (a, sec) :: rest => if a = s then some sec else getSection rest s

/-- Read one key of one section from a parsed file. -/
def getIni (ini : Ini) (s k : String) : Option String :=
  match getSection ini s with
  | none => none
  | some sec => getKey sec k

/-- Modelled from the spec: `_modify_optiscaler_ini` of `protonfixes/util.py`
(absent from src). The config file is `none` when it does not exist on disk,
in which case the patcher fails; otherwise the parsed structure is merged
with the overrides and written back. -/
def modify_optiscaler_ini (file : Option Ini) (overrides : Overrides) : Bool × Option Ini :=
  match file with
  | none => (false, none)
  | some c => (true, some (applyOverrides c overrides))

/-- Serialize a section back to text. -/
def renderSection : IniSection → String
  | [] => ""
  | (k, v) :: rest => k ++ " = " ++ v ++ "\n" ++ renderSection rest

/-- Serialize a parsed configuration file back to text. -/
def renderIni : Ini → String
  | [] => ""
  | (s, sec) :: rest => "[" ++ s ++ "]\n" ++ renderSection sec ++ renderIni rest

/-- Wine dll-override preference-order tokens accepted by the
library-resolution registrar. -/
inductive OverrideOrder where
  | native
  | builtin
  | nativeThenBuiltin
  | builtinThenNative
deriving DecidableEq

/-- The read-only source bundle: the primary binary, the canonical config
file (already in parsed form), the three auxiliary binaries and the plugin
subdirectory. -/
structure SourceBundle where
  optiscalerDll : String
  optiscalerIni : Ini
  fakenvapiDll : String
  nvngxDll : String
  libxessDll : String
  plugins : Files
deriving DecidableEq

/-- Modelled from the spec: `OPTISCALER_VALID_DLL_NAMES` of
`protonfixes/util.py` (absent from src); the unit tests fix its elements. -/
def OPTISCALER_VALID_DLL_NAMES : List String :=
  ["dxgi.dll", "winmm.dll", "version.dll", "dbghelp.dll", "d3d12.dll",
   "wininet.dll", "winhttp.dll", "OptiScaler.asi"]

/-- Install step 2: back up any existing file at the chosen primary-module
name (result ignored), then copy the bundle primary binary over it. -/
def installPrimary (fs : Files) (c : String) (n : String) : Files :=
  let fs1 := if (lookupFile fs n).isSome then (backupFiles fs n).2 else fs
  writeFile fs1 n c

/-- Install step 3: copy the three auxiliary binaries unconditionally. -/
def installAux (fs : Files) (b : SourceBundle) : Files :=
  writeFile (writeFile (writeFile fs "fakenvapi.dll" b.fakenvapiDll)
    "nvngx.dll" b.nvngxDll) "libxess.dll" b.libxessDll

/-- Install steps 2-4 on the plain files of the target directory: primary
module (with backup), auxiliary files, then the canonical config file merged
with the caller overrides. -/
def installFiles (fs : Files) (b : SourceBundle) (n : String) (ov : Overrides) : Files :=
  writeFile (installAux (installPrimary fs b.optiscalerDll n) b)
    "OptiScaler.ini" (renderIni (applyOverrides b.optiscalerIni ov))

/-- Install step 5: back up an existing live plugin directory wholesale
unless a plugin backup already exists (in which case the live directory is
replaced unbacked-up), then copy the bundle plugin directory in. -/
def installPlugins (d : FSDir) (b : SourceBundle) : FSDir :=
  match d.plugins with
  | none => { d with plugins := some b.plugins }
  | some p =>
    match d.pluginsBak with
    | some _ => { d with plugins := some b.plugins }
    | none => { d with plugins := some b.plugins, pluginsBak := some p }

/-- The outcome of an install call: the boolean result, the resulting state
of the target directory, and the library-resolution registrar invocations
performed (base name and preference-order token). -/
structure InstallResult where
  ok : Bool
  state : Option FSDir
  overrideCalls : List (String × OverrideOrder)
deriving DecidableEq

/-- Modelled from the spec: `install_optiscaler` of `protonfixes/util.py`
(absent from src). The target is `none` when the directory does not exist;
the source is `none` when the bundle locator fails. Preconditions (existing
target, allow-listed name, available bundle) fail with no write; otherwise
the overlay is copied with backups and, for a library-style name, the
registrar is called once with the base name and the prefer-native token. -/
def install_optiscaler (target : Option FSDir) (source : Option SourceBundle)
    (dll_name : String) (ini_overrides : Overrides) : InstallResult :=
  match target with
  | none => ⟨false, none, []⟩
  | some d =>
    if dll_name ∈ OPTISCALER_VALID_DLL_NAMES then
      match source with
      | none => ⟨false, some d, []⟩
      | some b =>
        ⟨true,
         some (installPlugins { d with files := installFiles d.files b dll_name ini_overrides } b),
         if strEndsWith dll_name ".dll"
           then [(dll_name.dropRight 4, OverrideOrder.native)] else []⟩
    else ⟨false, some d, []⟩

/-- Uninstall step 1 on plain files: restore the backup of every allow-listed
primary-module name (each restore result ignored). -/
def restoreAllFiles (fs : Files) (names : List String) : Files :=
  names.foldl (fun acc n => (restoreFiles acc n).2) fs

/-- Uninstall step 2 on plain files: delete the config file and the
auxiliary files when present. -/
def removeAuxAndIni (fs : Files) : Files :=
  removeFile (removeFile (removeFile (removeFile fs "OptiScaler.ini")
    "fakenvapi.dll") "nvngx.dll") "libxess.dll"

/-- Uninstall step 4 on plain files: delete every remaining file whose name
matches the reserved backup-suffix convention. -/
def removeBakFiles (fs : Files) : Files :=
  match fs with
  | [] => []
  | (m, c) :: rest =>
    if isBakName m then removeBakFiles rest else (m, c) :: removeBakFiles rest

/-- Uninstall steps 1, 2 and 4 composed on the plain files. -/
def uninstallFiles (fs : Files) : Files :=
  removeBakFiles (removeAuxAndIni (restoreAllFiles fs OPTISCALER_VALID_DLL_NAMES))

/-- Uninstall step 3: when a plugin backup exists, delete the live plugin
directory and move the backup into place; otherwise delete the live plugin
directory outright when present. -/
def uninstallPlugins (d : FSDir) : FSDir :=
  match d.pluginsBak with
  | some pb => { d with plugins := some pb, pluginsBak := none }
  | none => { d with plugins := none }

/-- The whole uninstall sequence on an existing target directory. -/
def uninstall_core (d : FSDir) : FSDir :=
  uninstallPlugins { d with files := uninstallFiles d.files }

/-- Modelled from the spec: `uninstall_optiscaler` of `protonfixes/util.py`
(absent from src). Fails with no action when the target directory does not
exist; otherwise runs the uninstall sequence and succeeds. -/
def uninstall_optiscaler (target : Option FSDir) : Bool × Option FSDir :=
  match target with
  | none => (false, none)
  | some d => (true, some (uninstall_core d))

/-- The config file of the unit tests, in parsed form. -/
def testIni : Ini := [("Upscaler", [("UpscaleRatio", "0.77")])]

/-- The override set of the unit tests. -/
def testOverrides : Overrides :=
  [("Spoofing", [("SpoofHAGS", "true")]), ("FrameGeneration", [("Enabled", "true")])]

/-- The source bundle of the unit tests. -/
def testBundle : SourceBundle :=
  ⟨"mock dll content", testIni, "mock fakenvapi", "mock nvngx", "mock libxess",
   [("test_plugin.dll", "mock plugin")]⟩

/-- The pristine game directory of the unit tests: one existing `dxgi.dll`,
no plugins directory. -/
def testDir : FSDir := ⟨[("dxgi.dll", "original game dll")], none, none⟩

/-- The test game directory with a pre-existing plugins directory. -/
def testDirPlugins : FSDir :=
  ⟨[("dxgi.dll", "original game dll")],
   some [("original_plugin.dll", "original plugin")], none⟩

@[simp]
theorem lookupFile_nil (n : String) : lookupFile [] n = none := rfl

theorem lookupFile_cons (m c n) (rest : Files) :
    lookupFile ((m, c) :: rest) n = if m = n then some c else lookupFile rest n := rfl

theorem lookup_writeFile_self (fs : Files) (n c : String) :
    lookupFile (writeFile fs n c) n = some c := by
  induction fs with
  | nil => simp [writeFile, lookupFile]
  | cons hd tl ih =>
    obtain ⟨m, b⟩ := hd
    by_cases h : m = n <;> simp [writeFile, lookupFile, h, ih]

theorem lookup_writeFile_ne (fs : Files) (n c m : String) (h : m ≠ n) :
    lookupFile (writeFile fs n c) m = lookupFile fs m := by
  induction fs with
  | nil => simp [writeFile, lookupFile, Ne.symm h]
  | cons hd tl ih =>
    obtain ⟨a, b⟩ := hd
    by_cases ha : a = n
    · subst ha
      simp [writeFile, lookupFile, Ne.symm h]
    · simp only [writeFile, if_neg ha, lookupFile]
      by_cases hm : a = m <;> simp [hm, ih]

theorem writeFile_absent (fs : Files) (n c : String) (h : lookupFile fs n = none) :
    writeFile fs n c = fs ++ [(n, c)] := by
  induction fs with
  | nil => simp [writeFile]
  | cons hd tl ih =>
    obtain ⟨m, b⟩ := hd
    simp only [lookupFile] at h
    by_cases hm : m = n
    · simp [hm] at h
    · simp only [if_neg hm] at h
      simp [writeFile, hm, ih h]

theorem writeFile_append_left (fs1 fs2 : Files) (n c : String)
    (h : (lookupFile fs1 n).isSome) :
    writeFile (fs1 ++ fs2) n c = writeFile fs1 n c ++ fs2 := by
  induction fs1 with
  | nil => simp [lookupFile] at h
  | cons hd tl ih =>
    obtain ⟨m, b⟩ := hd
    by_cases hm : m = n
    · simp [writeFile, hm]
    · simp only [lookupFile, if_neg hm] at h
      simp [writeFile, hm, ih h]

theorem writeFile_append_right (fs1 fs2 : Files) (n c : String)
    (h : lookupFile fs1 n = none) :
    writeFile (fs1 ++ fs2) n c = fs1 ++ writeFile fs2 n c := by
  induction fs1 with
  | nil => simp
  | cons hd tl ih =>
    obtain ⟨m, b⟩ := hd
    simp only [lookupFile] at h
    by_cases hm : m = n
    · simp [hm] at h
    · simp only [if_neg hm] at h
      simp [writeFile, hm, ih h]

theorem writeFile_writeFile (fs : Files) (n c1 c2 : String) :
    writeFile (writeFile fs n c1) n c2 = writeFile fs n c2 := by
  induction fs with
  | nil => simp [writeFile]
  | cons hd tl ih =>
    obtain ⟨m, b⟩ := hd
    by_cases hm : m = n <;> simp [writeFile, hm, ih]

theorem writeFile_self_id (fs : Files) (n c : String) (h : lookupFile fs n = some c) :
    writeFile fs n c = fs := by
  induction fs with
  | nil => simp [lookupFile] at h
  | cons hd tl ih =>
    obtain ⟨m, b⟩ := hd
    simp only [lookupFile] at h
    by_cases hm : m = n
    · subst hm
      rw [if_pos rfl] at h
      injection h with h
      subst h
      simp [writeFile]
    · simp only [if_neg hm] at h
      simp [writeFile, hm, ih h]

theorem removeFile_absent (fs : Files) (n : String) (h : lookupFile fs n = none) :
    removeFile fs n = fs := by
  induction fs with
  | nil => rfl
  | cons hd tl ih =>
    obtain ⟨m, b⟩ := hd
    simp only [lookupFile] at h
    by_cases hm : m = n
    · simp [hm] at h
    · simp only [if_neg hm] at h
      simp [removeFile, hm, ih h]

theorem removeFile_append (fs1 fs2 : Files) (n : String) :
    removeFile (fs1 ++ fs2) n = removeFile fs1 n ++ removeFile fs2 n := by
  induction fs1 with
  | nil => rfl
  | cons hd tl ih =>
    obtain ⟨m, b⟩ := hd
    by_cases hm : m = n <;> simp [removeFile, hm, ih]

theorem lookup_removeFile_self (fs : Files) (n : String) :
    lookupFile (removeFile fs n) n = none := by
  induction fs with
  | nil => rfl
  | cons hd tl ih =>
    obtain ⟨m, b⟩ := hd
    by_cases hm : m = n <;> simp [removeFile, lookupFile, hm, ih]

theorem lookup_removeFile_ne (fs : Files) (n m : String) (h : m ≠ n) :
    lookupFile (removeFile fs n) m = lookupFile fs m := by
  induction fs with
  | nil => rfl
  | cons hd tl ih =>
    obtain ⟨a, b⟩ := hd
    by_cases ha : a = n
    · subst ha
      simp [removeFile, lookupFile, ih, Ne.symm h]
    · simp only [removeFile, if_neg ha, lookupFile]
      by_cases hm : a = m <;> simp [hm, ih]

theorem lookup_append_none (fs1 fs2 : Files) (n : String) (h : lookupFile fs1 n = none) :
    lookupFile (fs1 ++ fs2) n = lookupFile fs2 n := by
  induction fs1 with
  | nil => rfl
  | cons hd tl ih =>
    obtain ⟨m, b⟩ := hd
    simp only [lookupFile] at h
    by_cases hm : m = n
    · simp [hm] at h
    · simp only [if_neg hm] at h
      simp [lookupFile, hm, ih h]

theorem lookup_append_some (fs1 fs2 : Files) (n c : String) (h : lookupFile fs1 n = some c) :
    lookupFile (fs1 ++ fs2) n = some c := by
  induction fs1 with
  | nil => simp [lookupFile] at h
  | cons hd tl ih =>
    obtain ⟨m, b⟩ := hd
    simp only [lookupFile] at h
    by_cases hm : m = n
    · simpa [lookupFile, hm] using h
    · simp only [if_neg hm] at h
      simp [lookupFile, hm, ih h]

theorem strEndsWith_append (a b : String) : strEndsWith (a ++ b) b = true := by
  simp [strEndsWith, String.data_append]

theorem isBakName_bakName (n : String) : isBakName (bakName n) = true :=
  strEndsWith_append n BAK_SUFFIX

theorem bakName_ne_self (n : String) : bakName n ≠ n := by
  intro hc
  have hd := congrArg String.data hc
  rw [bakName, String.data_append] at hd
  have h2 := congrArg List.length hd
  rw [List.length_append] at h2
  have hz : BAK_SUFFIX.data.length = 0 := by omega
  simp [BAK_SUFFIX] at hz

theorem bakName_injective (a b : String) (h : bakName a = bakName b) : a = b := by
  have hd := congrArg String.data h
  simp only [bakName, String.data_append] at hd
  exact String.ext (List.append_cancel_right hd)

theorem ne_bakName_of_not_bak (m n : String) (h : isBakName m = false) : m ≠ bakName n := by
  intro hc
  rw [hc, isBakName_bakName] at h
  exact absurd h (by simp)

theorem lookup_bak_none (fs : Files) (h : ∀ p ∈ fs, isBakName p.1 = false) (m : String) :
    lookupFile fs (bakName m) = none := by
  induction fs with
  | nil => rfl
  | cons hd tl ih =>
    obtain ⟨a, b⟩ := hd
    have ha : isBakName a = false := h (a, b) (List.mem_cons_self _ _)
    have hne : a ≠ bakName m := ne_bakName_of_not_bak a m ha
    simp only [lookupFile, if_neg hne]
    exact ih (fun p hp => h p (List.mem_cons_of_mem _ hp))

theorem setKeys_cons (sec : IniSection) (k v : String) (rest : List (String × String)) :
    setKeys sec ((k, v) :: rest) = setKeys (setKey sec k v) rest := rfl

theorem getKey_setKey_self (sec : IniSection) (k v : String) :
    getKey (setKey sec k v) k = some v := by
  induction sec with
  | nil => simp [setKey, getKey]
  | cons hd tl ih =>
    obtain ⟨a, b⟩ := hd
    by_cases h : a = k <;> simp [setKey, getKey, h, ih]

theorem getKey_setKey_ne (sec : IniSection) (k v m : String) (h : m ≠ k) :
    getKey (setKey sec k v) m = getKey sec m := by
  induction sec with
  | nil => simp [setKey, getKey, Ne.symm h]
  | cons hd tl ih =>
    obtain ⟨a, b⟩ := hd
    by_cases ha : a = k
    · subst ha
      simp [setKey, getKey, Ne.symm h]
    · simp only [setKey, if_neg ha, getKey]
      by_cases hm : a = m <;> simp [hm, ih]

theorem getKey_setKeys_not_mem (kvs : List (String × String)) (sec : IniSection) (k : String)
    (h : k ∉ kvs.map Prod.fst) :
    getKey (setKeys sec kvs) k = getKey sec k := by
  induction kvs generalizing sec with
  | nil => rfl
  | cons p rest ih =>
    obtain ⟨a, b⟩ := p
    simp only [List.map_cons, List.mem_cons, not_or] at h
    rw [setKeys_cons, ih _ h.2, getKey_setKey_ne _ _ _ _ h.1]

theorem getKey_setKeys_mem (kvs : List (String × String)) (sec : IniSection) (k v : String)
    (hnd : (kvs.map Prod.fst).Nodup) (hmem : (k, v) ∈ kvs) :
    getKey (setKeys sec kvs) k = some v := by
  induction kvs generalizing sec with
  | nil => cases hmem
  | cons p rest ih =>
    obtain ⟨a, b⟩ := p
    simp only [List.map_cons, List.nodup_cons] at hnd
    rw [setKeys_cons]
    rcases List.mem_cons.mp hmem with heq | hmem2
    · obtain ⟨hk, hv⟩ := Prod.mk.injEq .. ▸ heq
      subst hk
      subst hv
      rw [getKey_setKeys_not_mem _ _ _ hnd.1, getKey_setKey_self]
    · exact ih (setKey sec a b) hnd.2 hmem2

theorem getSection_setSection_self (ini : Ini) (s : String) (kvs : List (String × String)) :
    getSection (setSection ini s kvs) s =
      some (setKeys ((getSection ini s).getD []) kvs) := by
  induction ini with
  | nil => simp [setSection, getSection]
  | cons hd tl ih =>
    obtain ⟨a, sec⟩ := hd
    by_cases h : a = s <;> simp [setSection, getSection, h, ih]

theorem getSection_setSection_ne (ini : Ini) (s : String) (kvs : List (String × String))
    (t : String) (h : t ≠ s) :
    getSection (setSection ini s kvs) t = getSection ini t := by
  induction ini with
  | nil => simp [setSection, getSection, Ne.symm h]
  | cons hd tl ih =>
    obtain ⟨a, sec⟩ := hd
    by_cases ha : a = s
    · subst ha
      simp [setSection, getSection, Ne.symm h]
    · simp only [setSection, if_neg ha, getSection]
      by_cases ht : a = t <;> simp [ht, ih]

theorem applyOverrides_nil (ini : Ini) : applyOverrides ini [] = ini := rfl

theorem applyOverrides_cons (ini : Ini) (s : String) (kvs : List (String × String))
    (rest : Overrides) :
    applyOverrides ini ((s, kvs) :: rest) = applyOverrides (setSection ini s kvs) rest := rfl

theorem getSection_applyOverrides_not_mem (ov : Overrides) (ini : Ini) (s : String)
    (h : s ∉ ov.map Prod.fst) :
    getSection (applyOverrides ini ov) s = getSection ini s := by
  induction ov generalizing ini with
  | nil => rfl
  | cons p rest ih =>
    obtain ⟨a, kvs⟩ := p
    simp only [List.map_cons, List.mem_cons, not_or] at h
    rw [applyOverrides_cons, ih _ h.2, getSection_setSection_ne _ _ _ _ h.1]

theorem getIni_applyOverrides_mem (ov : Overrides) (ini : Ini)
    (s : String) (kvs : List (String × String)) (k v : String)
    (hsec : (ov.map Prod.fst).Nodup)
    (hkeys : ∀ p ∈ ov, (p.2.map Prod.fst).Nodup)
    (hs : (s, kvs) ∈ ov) (hk : (k, v) ∈ kvs) :
    getIni (applyOverrides ini ov) s k = some v := by
  induction ov generalizing ini with
  | nil => cases hs
  | cons p rest ih =>
    obtain ⟨a, akvs⟩ := p
    simp only [List.map_cons, List.nodup_cons] at hsec
    rw [applyOverrides_cons]
    rcases List.mem_cons.mp hs with heq | hs2
    · obtain ⟨ha, hkv⟩ := Prod.mk.injEq .. ▸ heq
      subst ha
      subst hkv
      have hnd : (kvs.map Prod.fst).Nodup :=
        hkeys (s, kvs) (List.mem_cons_self _ _)
      rw [getIni, getSection_applyOverrides_not_mem rest _ s hsec.1,
        getSection_setSection_self]
      exact getKey_setKeys_mem _ _ _ _ hnd hk
    · exact ih _ hsec.2 (fun p hp => hkeys p (List.mem_cons_of_mem _ hp)) hs2

theorem getIni_applyOverrides_preserved (ov : Overrides) (ini : Ini) (s k : String)
    (h : ∀ kvs, (s, kvs) ∈ ov → k ∉ kvs.map Prod.fst) :
    getIni (applyOverrides ini ov) s k = getIni ini s k := by
  induction ov generalizing ini with
  | nil => rfl
  | cons p rest ih =>
    obtain ⟨a, akvs⟩ := p
    rw [applyOverrides_cons,
      ih _ (fun kvs hkvs => h kvs (List.mem_cons_of_mem _ hkvs))]
    by_cases ha : a = s
    · subst ha
      have hnk : k ∉ akvs.map Prod.fst := h akvs (List.mem_cons_self _ _)
      rw [getIni, getSection_setSection_self, getIni]
      cases hsec : getSection ini a with
      | none => simp [getKey_setKeys_not_mem _ _ _ hnk, getKey]
      | some sec => simp [getKey_setKeys_not_mem _ _ _ hnk]
    · rw [getIni, getSection_setSection_ne _ _ _ _ (Ne.symm ha), getIni]

/-- C3: `backup(path)` succeeds iff the file exists and no backup for it
exists; on success the created backup is byte-for-byte the pre-backup
original and the original is unchanged; on failure (missing file or existing
backup) the directory is left entirely unchanged and no exception is raised
(the operation is total). -/
theorem backup_file_spec (d : FSDir) (n : String) :
    ((backup_file d n).1 = true ↔
      (lookupFile d.files n).isSome ∧ lookupFile d.files (bakName n) = none) ∧
    ((backup_file d n).1 = true →
      lookupFile (backup_file d n).2.files (bakName n) = lookupFile d.files n ∧
      lookupFile (backup_file d n).2.files n = lookupFile d.files n) ∧
    ((backup_file d n).1 = false → (backup_file d n).2 = d) := by
  unfold backup_file backupFiles
  cases h1 : lookupFile d.files n with
  | none => simp
  | some c =>
    cases h2 : lookupFile d.files (bakName n) with
    | some b => simp
    | none =>
      refine ⟨by simp, fun _ => ⟨?_, ?_⟩, by simp⟩
      · exact lookup_writeFile_self _ _ _
      · rw [lookup_writeFile_ne _ _ _ _ (Ne.symm (bakName_ne_self n))]
        simp [h1]

/-- C4: `restore(path)` succeeds iff a backup exists; on success the file at
`path` afterwards equals the prior contents of the backup (created when absent),
the backup is gone, and a second restore fails; on failure the directory is
left unchanged. -/
theorem restore_backup_spec (d : FSDir) (n : String) :
    ((restore_backup d n).1 = true ↔ (lookupFile d.files (bakName n)).isSome) ∧
    ((restore_backup d n).1 = true →
      lookupFile (restore_backup d n).2.files n = lookupFile d.files (bakName n) ∧
      lookupFile (restore_backup d n).2.files (bakName n) = none ∧
      (restore_backup (restore_backup d n).2 n).1 = false) ∧
    ((restore_backup d n).1 = false → (restore_backup d n).2 = d) := by
  cases h : lookupFile d.files (bakName n) with
  | none =>
    unfold restore_backup restoreFiles
    simp [h]
  | some c =>
    have hr1 : lookupFile (removeFile (writeFile d.files n c) (bakName n)) n
        = some c := by
      rw [lookup_removeFile_ne _ _ _ (Ne.symm (bakName_ne_self n)),
        lookup_writeFile_self]
    have hr2 : lookupFile (removeFile (writeFile d.files n c) (bakName n))
        (bakName n) = none := lookup_removeFile_self _ _
    unfold restore_backup restoreFiles
    simp [h, hr1, hr2]

/-- C6: for an existing config file, `apply_overrides` succeeds; every
override key of every override section reads back verbatim (sections are
created as needed); keys and sections not mentioned in the overrides are
preserved; the empty override set is a successful no-op; and a missing
config file makes the call fail. -/
theorem modify_optiscaler_ini_spec (c : Ini) (ov : Overrides)
    (hsec : (ov.map Prod.fst).Nodup)
    (hkeys : ∀ p ∈ ov, (p.2.map Prod.fst).Nodup) :
    (modify_optiscaler_ini (some c) ov = (true, some (applyOverrides c ov))) ∧
    (∀ s kvs, (s, kvs) ∈ ov → ∀ k v, (k, v) ∈ kvs →
      getIni (applyOverrides c ov) s k = some v) ∧
    (∀ s k, (∀ kvs, (s, kvs) ∈ ov → k ∉ kvs.map Prod.fst) →
      getIni (applyOverrides c ov) s k = getIni c s k) ∧
    (∀ s, s ∉ ov.map Prod.fst →
      getSection (applyOverrides c ov) s = getSection c s) ∧
    (modify_optiscaler_ini (some c) [] = (true, some c)) ∧
    (∀ ov2, modify_optiscaler_ini none ov2 = (false, none)) := by
  refine ⟨rfl, ?_, ?_, ?_, rfl, fun ov2 => rfl⟩
  · exact fun s kvs hs k v hk =>
      getIni_applyOverrides_mem ov c s kvs k v hsec hkeys hs hk
  · exact fun s k h => getIni_applyOverrides_preserved ov c s k h
  · exact fun s h => getSection_applyOverrides_not_mem ov c s h

/-- Witness for C6 at the concrete config file and override set of the unit
tests. -/
theorem modify_optiscaler_ini_spec_witness :
    ((testOverrides.map Prod.fst).Nodup ∧
      (∀ p ∈ testOverrides, (p.2.map Prod.fst).Nodup)) ∧
    ((modify_optiscaler_ini (some testIni) testOverrides
        = (true, some (applyOverrides testIni testOverrides))) ∧
    (∀ s kvs, (s, kvs) ∈ testOverrides → ∀ k v, (k, v) ∈ kvs →
      getIni (applyOverrides testIni testOverrides) s k = some v) ∧
    (∀ s k, (∀ kvs, (s, kvs) ∈ testOverrides → k ∉ kvs.map Prod.fst) →
      getIni (applyOverrides testIni testOverrides) s k = getIni testIni s k) ∧
    (∀ s, s ∉ testOverrides.map Prod.fst →
      getSection (applyOverrides testIni testOverrides) s = getSection testIni s) ∧
    (modify_optiscaler_ini (some testIni) [] = (true, some testIni)) ∧
    (∀ ov2, modify_optiscaler_ini none ov2 = (false, none))) :=
  ⟨⟨by decide, by decide⟩,
    modify_optiscaler_ini_spec testIni testOverrides (by decide) (by decide)⟩

theorem valid_names_nodup : OPTISCALER_VALID_DLL_NAMES.Nodup := by decide

theorem valid_name_facts : ∀ n ∈ OPTISCALER_VALID_DLL_NAMES,
    isBakName n = false ∧ n ≠ "OptiScaler.ini" ∧ n ≠ "fakenvapi.dll" ∧
    n ≠ "nvngx.dll" ∧ n ≠ "libxess.dll" := by decide

theorem restoreAllFiles_cons (fs : Files) (n : String) (rest : List String) :
    restoreAllFiles fs (n :: rest) = restoreAllFiles (restoreFiles fs n).2 rest := rfl

theorem restoreAllFiles_append (fs : Files) (l1 l2 : List String) :
    restoreAllFiles fs (l1 ++ l2) = restoreAllFiles (restoreAllFiles fs l1) l2 :=
  List.foldl_append _ _ _ _

theorem restoreAllFiles_id (names : List String) (fs : Files)
    (h : ∀ n ∈ names, lookupFile fs (bakName n) = none) :
    restoreAllFiles fs names = fs := by
  induction names with
  | nil => rfl
  | cons n rest ih =>
    rw [restoreAllFiles_cons]
    have h0 : (restoreFiles fs n).2 = fs := by
      simp [restoreFiles, h n (List.mem_cons_self _ _)]
    rw [h0]
    exact ih fun m hm => h m (List.mem_cons_of_mem _ hm)

theorem removeBakFiles_id (fs : Files) (h : ∀ p ∈ fs, isBakName p.1 = false) :
    removeBakFiles fs = fs := by
  induction fs with
  | nil => rfl
  | cons hd tl ih =>
    obtain ⟨m, c⟩ := hd
    have hm : isBakName m = false := h (m, c) (List.mem_cons_self _ _)
    simp only [removeBakFiles, hm, Bool.false_eq_true, if_false]
    rw [ih fun p hp => h p (List.mem_cons_of_mem _ hp)]

theorem removeBakFiles_clean (fs : Files) :
    ∀ p ∈ removeBakFiles fs, isBakName p.1 = false := by
  induction fs with
  | nil => intro p hp; cases hp
  | cons hd tl ih =>
    obtain ⟨m, c⟩ := hd
    intro p hp
    by_cases hm : isBakName m
    · rw [removeBakFiles, if_pos hm] at hp
      exact ih p hp
    · rw [removeBakFiles, if_neg hm] at hp
      rcases List.mem_cons.mp hp with heq | hp2
      · subst heq
        exact Bool.eq_false_iff.mpr hm
      · exact ih p hp2

theorem installPlugins_files (d : FSDir) (b : SourceBundle) :
    (installPlugins d b).files = d.files := by
  unfold installPlugins
  cases d.plugins with
  | none => rfl
  | some p => cases d.pluginsBak <;> rfl

theorem uninstallPlugins_files (d : FSDir) :
    (uninstallPlugins d).files = d.files := by
  unfold uninstallPlugins
  cases d.pluginsBak <;> rfl

theorem installFiles_eq (fs : Files) (b : SourceBundle) (n : String) (ov : Overrides)
    (orig : String)
    (hval : n ∈ OPTISCALER_VALID_DLL_NAMES)
    (horig : lookupFile fs n = some orig)
    (hnb : ∀ p ∈ fs, isBakName p.1 = false)
    (hini : lookupFile fs "OptiScaler.ini" = none)
    (hfak : lookupFile fs "fakenvapi.dll" = none)
    (hnv : lookupFile fs "nvngx.dll" = none)
    (hlib : lookupFile fs "libxess.dll" = none) :
    installFiles fs b n ov =
      writeFile fs n b.optiscalerDll ++
        [(bakName n, orig), ("fakenvapi.dll", b.fakenvapiDll),
         ("nvngx.dll", b.nvngxDll), ("libxess.dll", b.libxessDll),
         ("OptiScaler.ini", renderIni (applyOverrides b.optiscalerIni ov))] := by
  obtain ⟨hnbn, hni, hfa, hnvn, hli⟩ := valid_name_facts n hval
  have hnbak : lookupFile fs (bakName n) = none := lookup_bak_none fs hnb n
  have hbfak : bakName n ≠ "fakenvapi.dll" :=
    Ne.symm (ne_bakName_of_not_bak _ n (by decide))
  have hbnv : bakName n ≠ "nvngx.dll" :=
    Ne.symm (ne_bakName_of_not_bak _ n (by decide))
  have hbli : bakName n ≠ "libxess.dll" :=
    Ne.symm (ne_bakName_of_not_bak _ n (by decide))
  have hbini : bakName n ≠ "OptiScaler.ini" :=
    Ne.symm (ne_bakName_of_not_bak _ n (by decide))
  have h1 : installPrimary fs b.optiscalerDll n
      = writeFile fs n b.optiscalerDll ++ [(bakName n, orig)] := by
    unfold installPrimary
    have hb : (backupFiles fs n).2 = fs ++ [(bakName n, orig)] := by
      simp only [backupFiles, horig, hnbak]
      exact writeFile_absent fs (bakName n) orig hnbak
    simp only [horig, Option.isSome_some, if_true, hb]
    exact writeFile_append_left _ _ _ _ (by simp [horig])
  have hWfak : lookupFile (writeFile fs n b.optiscalerDll) "fakenvapi.dll" = none := by
    rw [lookup_writeFile_ne _ _ _ _ (Ne.symm hfa)]; exact hfak
  have hWnv : lookupFile (writeFile fs n b.optiscalerDll) "nvngx.dll" = none := by
    rw [lookup_writeFile_ne _ _ _ _ (Ne.symm hnvn)]; exact hnv
  have hWlib : lookupFile (writeFile fs n b.optiscalerDll) "libxess.dll" = none := by
    rw [lookup_writeFile_ne _ _ _ _ (Ne.symm hli)]; exact hlib
  have hWini : lookupFile (writeFile fs n b.optiscalerDll) "OptiScaler.ini" = none := by
    rw [lookup_writeFile_ne _ _ _ _ (Ne.symm hni)]; exact hini
  have h2 : installAux (writeFile fs n b.optiscalerDll ++ [(bakName n, orig)]) b
      = writeFile fs n b.optiscalerDll ++
        [(bakName n, orig), ("fakenvapi.dll", b.fakenvapiDll),
         ("nvngx.dll", b.nvngxDll), ("libxess.dll", b.libxessDll)] := by
    unfold installAux
    rw [writeFile_append_right _ _ _ _ hWfak,
      writeFile_append_right _ _ _ _ hWnv,
      writeFile_append_right _ _ _ _ hWlib]
    congr 1
    simp [writeFile, hbfak, hbnv, hbli]
  unfold installFiles
  rw [h1, h2, writeFile_append_right _ _ _ _ hWini]
  congr 1
  simp [writeFile, hbini]

theorem uninstallFiles_eq (fs : Files) (n : String) (orig c1 c2 c3 c4 c5 : String)
    (hval : n ∈ OPTISCALER_VALID_DLL_NAMES)
    (horig : lookupFile fs n = some orig)
    (hnb : ∀ p ∈ fs, isBakName p.1 = false)
    (hini : lookupFile fs "OptiScaler.ini" = none)
    (hfak : lookupFile fs "fakenvapi.dll" = none)
    (hnv : lookupFile fs "nvngx.dll" = none)
    (hlib : lookupFile fs "libxess.dll" = none) :
    uninstallFiles (writeFile fs n c1 ++
      [(bakName n, orig), ("fakenvapi.dll", c2), ("nvngx.dll", c3),
       ("libxess.dll", c4), ("OptiScaler.ini", c5)]) = fs := by
  obtain ⟨hnbn, hni, hfa, hnvn, hli⟩ := valid_name_facts n hval
  have hbfak : bakName n ≠ "fakenvapi.dll" :=
    Ne.symm (ne_bakName_of_not_bak _ n (by decide))
  have hbnv : bakName n ≠ "nvngx.dll" :=
    Ne.symm (ne_bakName_of_not_bak _ n (by decide))
  have hbli : bakName n ≠ "libxess.dll" :=
    Ne.symm (ne_bakName_of_not_bak _ n (by decide))
  have hbini : bakName n ≠ "OptiScaler.ini" :=
    Ne.symm (ne_bakName_of_not_bak _ n (by decide))
  obtain ⟨l1, l2, hsplit⟩ := List.append_of_mem hval
  have hnodup := valid_names_nodup
  rw [hsplit] at hnodup
  rw [List.nodup_append] at hnodup
  obtain ⟨hnd1, hnd2, hdisj⟩ := hnodup
  rw [List.nodup_cons] at hnd2
  have hn_l1 : n ∉ l1 := fun hm => hdisj hm (List.mem_cons_self n l2)
  have hn_l2 : n ∉ l2 := hnd2.1
  set W := writeFile fs n c1 with hW
  set T : Files := [(bakName n, orig), ("fakenvapi.dll", c2), ("nvngx.dll", c3),
    ("libxess.dll", c4), ("OptiScaler.ini", c5)] with hT
  have hlookT : ∀ m, m ≠ n → lookupFile T (bakName m) = none := by
    intro m hm
    have e1 : bakName n ≠ bakName m := fun h => (hm (bakName_injective n m h).symm).elim
    have e2 : ("fakenvapi.dll" : String) ≠ bakName m :=
      ne_bakName_of_not_bak _ m (by decide)
    have e3 : ("nvngx.dll" : String) ≠ bakName m :=
      ne_bakName_of_not_bak _ m (by decide)
    have e4 : ("libxess.dll" : String) ≠ bakName m :=
      ne_bakName_of_not_bak _ m (by decide)
    have e5 : ("OptiScaler.ini" : String) ≠ bakName m :=
      ne_bakName_of_not_bak _ m (by decide)
    simp [hT, lookupFile, e1, e2, e3, e4, e5]
  have hlookW : ∀ m, m ≠ n → lookupFile W (bakName m) = none := by
    intro m hm
    have hbn : bakName m ≠ n := Ne.symm (ne_bakName_of_not_bak n m hnbn)
    rw [hW, lookup_writeFile_ne _ _ _ _ hbn]
    exact lookup_bak_none fs hnb m
  have hstep1 : restoreAllFiles (W ++ T) l1 = W ++ T := by
    apply restoreAllFiles_id
    intro m hm
    have hmn : m ≠ n := fun h => hn_l1 (h ▸ hm)
    rw [lookup_append_none _ _ _ (hlookW m hmn)]
    exact hlookT m hmn
  have hlookWn : lookupFile W (bakName n) = none := by
    rw [hW, lookup_writeFile_ne _ _ _ _ (Ne.symm (ne_bakName_of_not_bak n n hnbn))]
    exact lookup_bak_none fs hnb n
  have hlookTn : lookupFile T (bakName n) = some orig := by
    simp [hT, lookupFile]
  have hstep2 : (restoreFiles (W ++ T) n).2 = fs ++ [("fakenvapi.dll", c2),
      ("nvngx.dll", c3), ("libxess.dll", c4), ("OptiScaler.ini", c5)] := by
    have hbk : lookupFile (W ++ T) (bakName n) = some orig := by
      rw [lookup_append_none _ _ _ hlookWn]
      exact hlookTn
    have hwr : writeFile (W ++ T) n orig = fs ++ T := by
      rw [writeFile_append_left _ _ _ _ (by simp [hW, lookup_writeFile_self])]
      congr 1
      rw [hW, writeFile_writeFile]
      exact writeFile_self_id fs n orig horig
    simp only [restoreFiles, hbk, hwr]
    rw [removeFile_append]
    congr 1
    · exact removeFile_absent fs _ (lookup_bak_none fs hnb n)
    · simp [hT, removeFile, Ne.symm hbfak, Ne.symm hbnv, Ne.symm hbli, Ne.symm hbini]
  have hstep3 : restoreAllFiles (fs ++ [("fakenvapi.dll", c2), ("nvngx.dll", c3),
      ("libxess.dll", c4), ("OptiScaler.ini", c5)]) l2 = fs ++ [("fakenvapi.dll", c2),
      ("nvngx.dll", c3), ("libxess.dll", c4), ("OptiScaler.ini", c5)] := by
    apply restoreAllFiles_id
    intro m hm
    rw [lookup_append_none _ _ _ (lookup_bak_none fs hnb m)]
    have e2 : ("fakenvapi.dll" : String) ≠ bakName m :=
      ne_bakName_of_not_bak _ m (by decide)
    have e3 : ("nvngx.dll" : String) ≠ bakName m :=
      ne_bakName_of_not_bak _ m (by decide)
    have e4 : ("libxess.dll" : String) ≠ bakName m :=
      ne_bakName_of_not_bak _ m (by decide)
    have e5 : ("OptiScaler.ini" : String) ≠ bakName m :=
      ne_bakName_of_not_bak _ m (by decide)
    simp [lookupFile, e2, e3, e4, e5]
  have hremove : removeAuxAndIni (fs ++ [("fakenvapi.dll", c2), ("nvngx.dll", c3),
      ("libxess.dll", c4), ("OptiScaler.ini", c5)]) = fs := by
    unfold removeAuxAndIni
    rw [removeFile_append, removeFile_absent fs _ hini,
      removeFile_append, removeFile_absent fs _ hfak,
      removeFile_append, removeFile_absent fs _ hnv,
      removeFile_append, removeFile_absent fs _ hlib]
    have : removeFile (removeFile (removeFile (removeFile
        ([("fakenvapi.dll", c2), ("nvngx.dll", c3), ("libxess.dll", c4),
          ("OptiScaler.ini", c5)] : Files) "OptiScaler.ini")
        "fakenvapi.dll") "nvngx.dll") "libxess.dll" = [] := by
      simp [removeFile]
    rw [this, List.append_nil]
  unfold uninstallFiles
  rw [hsplit, restoreAllFiles_append, restoreAllFiles_cons, hstep1, hstep2, hstep3,
    hremove]
  exact removeBakFiles_id fs hnb

theorem roundtrip_plugins (d : FSDir) (b : SourceBundle) (F : Files)
    (hpb : d.pluginsBak = none) :
    uninstall_core (installPlugins { d with files := F } b)
      = { d with files := uninstallFiles F } := by
  obtain ⟨dfs, dpl, dpb⟩ := d
  simp only at hpb
  subst hpb
  cases dpl <;> simp [installPlugins, uninstall_core, uninstallPlugins]

theorem installPlugins_eq_some (d : FSDir) (b : SourceBundle) (F : Files) (pl : Files)
    (hpl : d.plugins = some pl) (hpb : d.pluginsBak = none) :
    installPlugins { d with files := F } b = ⟨F, some b.plugins, some pl⟩ := by
  obtain ⟨dfs, dpl, dpb⟩ := d
  simp only at hpl hpb
  subst hpl
  subst hpb
  simp [installPlugins]

theorem installPlugins_eq_none (d : FSDir) (b : SourceBundle) (F : Files)
    (hpl : d.plugins = none) :
    installPlugins { d with files := F } b = ⟨F, some b.plugins, d.pluginsBak⟩ := by
  obtain ⟨dfs, dpl, dpb⟩ := d
  simp only at hpl
  subst hpl
  simp [installPlugins]

/-- C1: on a pristine target directory (no backup-suffixed files, no
installer-owned files, no plugin-directory backup) that contains an existing
file at the chosen allow-listed primary-module name, `install` succeeds and a
subsequent `uninstall` succeeds and returns the directory to its exact
pre-install state, with no backup files (reserved-suffix names) left
behind. -/
theorem install_uninstall_roundtrip (d : FSDir) (b : SourceBundle) (n : String)
    (ov : Overrides) (orig : String)
    (hval : n ∈ OPTISCALER_VALID_DLL_NAMES)
    (horig : lookupFile d.files n = some orig)
    (hnb : ∀ p ∈ d.files, isBakName p.1 = false)
    (hini : lookupFile d.files "OptiScaler.ini" = none)
    (hfak : lookupFile d.files "fakenvapi.dll" = none)
    (hnv : lookupFile d.files "nvngx.dll" = none)
    (hlib : lookupFile d.files "libxess.dll" = none)
    (hpb : d.pluginsBak = none) :
    (install_optiscaler (some d) (some b) n ov).ok = true ∧
    ∀ d5, (install_optiscaler (some d) (some b) n ov).state = some d5 →
      uninstall_optiscaler (some d5) = (true, some d) ∧
      (∀ p ∈ (uninstall_core d5).files, isBakName p.1 = false) ∧
      (uninstall_core d5).pluginsBak = none := by
  have hstate : install_optiscaler (some d) (some b) n ov
      = ⟨true, some (installPlugins { d with files := installFiles d.files b n ov } b),
          if strEndsWith n ".dll" then [(n.dropRight 4, OverrideOrder.native)]
          else []⟩ := by
    simp [install_optiscaler, hval]
  refine ⟨by rw [hstate], ?_⟩
  intro d5 h5
  rw [hstate] at h5
  simp only [Option.some.injEq] at h5
  subst h5
  have hfiles : uninstallFiles (installFiles d.files b n ov) = d.files := by
    rw [installFiles_eq d.files b n ov orig hval horig hnb hini hfak hnv hlib]
    exact uninstallFiles_eq d.files n orig _ _ _ _ _ hval horig hnb hini hfak hnv hlib
  have hcore : uninstall_core
      (installPlugins { d with files := installFiles d.files b n ov } b) = d := by
    rw [roundtrip_plugins d b _ hpb, hfiles]
  refine ⟨?_, ?_, ?_⟩
  · show uninstall_optiscaler (some _) = (true, some d)
    simp only [uninstall_optiscaler, hcore]
  · rw [hcore]
    exact hnb
  · rw [hcore]
    exact hpb

theorem installFiles_second (fs : Files) (b : SourceBundle) (n : String) (ov : Overrides)
    (orig : String)
    (hval : n ∈ OPTISCALER_VALID_DLL_NAMES)
    (hnb : ∀ p ∈ fs, isBakName p.1 = false)
    (hini : lookupFile fs "OptiScaler.ini" = none)
    (hfak : lookupFile fs "fakenvapi.dll" = none)
    (hnv : lookupFile fs "nvngx.dll" = none)
    (hlib : lookupFile fs "libxess.dll" = none) :
    backupFiles (writeFile fs n b.optiscalerDll ++
      [(bakName n, orig), ("fakenvapi.dll", b.fakenvapiDll),
       ("nvngx.dll", b.nvngxDll), ("libxess.dll", b.libxessDll),
       ("OptiScaler.ini", renderIni (applyOverrides b.optiscalerIni ov))]) n
      = (false, writeFile fs n b.optiscalerDll ++
        [(bakName n, orig), ("fakenvapi.dll", b.fakenvapiDll),
         ("nvngx.dll", b.nvngxDll), ("libxess.dll", b.libxessDll),
         ("OptiScaler.ini", renderIni (applyOverrides b.optiscalerIni ov))]) ∧
    lookupFile (writeFile fs n b.optiscalerDll ++
      [(bakName n, orig), ("fakenvapi.dll", b.fakenvapiDll),
       ("nvngx.dll", b.nvngxDll), ("libxess.dll", b.libxessDll),
       ("OptiScaler.ini", renderIni (applyOverrides b.optiscalerIni ov))]) (bakName n)
      = some orig ∧
    installFiles (writeFile fs n b.optiscalerDll ++
      [(bakName n, orig), ("fakenvapi.dll", b.fakenvapiDll),
       ("nvngx.dll", b.nvngxDll), ("libxess.dll", b.libxessDll),
       ("OptiScaler.ini", renderIni (applyOverrides b.optiscalerIni ov))]) b n ov
      = writeFile fs n b.optiscalerDll ++
        [(bakName n, orig), ("fakenvapi.dll", b.fakenvapiDll),
         ("nvngx.dll", b.nvngxDll), ("libxess.dll", b.libxessDll),
         ("OptiScaler.ini", renderIni (applyOverrides b.optiscalerIni ov))] := by
  obtain ⟨hnbn, hni, hfa, hnvn, hli⟩ := valid_name_facts n hval
  have hbfak : bakName n ≠ "fakenvapi.dll" :=
    Ne.symm (ne_bakName_of_not_bak _ n (by decide))
  have hbnv : bakName n ≠ "nvngx.dll" :=
    Ne.symm (ne_bakName_of_not_bak _ n (by decide))
  have hbli : bakName n ≠ "libxess.dll" :=
    Ne.symm (ne_bakName_of_not_bak _ n (by decide))
  have hbini : bakName n ≠ "OptiScaler.ini" :=
    Ne.symm (ne_bakName_of_not_bak _ n (by decide))
  set W := writeFile fs n b.optiscalerDll with hW
  set T : Files := [(bakName n, orig), ("fakenvapi.dll", b.fakenvapiDll),
    ("nvngx.dll", b.nvngxDll), ("libxess.dll", b.libxessDll),
    ("OptiScaler.ini", renderIni (applyOverrides b.optiscalerIni ov))] with hT
  have hWn : lookupFile W n = some b.optiscalerDll := lookup_writeFile_self _ _ _
  have hFn : lookupFile (W ++ T) n = some b.optiscalerDll :=
    lookup_append_some _ _ _ _ hWn
  have hlookWn : lookupFile W (bakName n) = none := by
    rw [hW, lookup_writeFile_ne _ _ _ _ (Ne.symm (ne_bakName_of_not_bak n n hnbn))]
    exact lookup_bak_none fs hnb n
  have hFbak : lookupFile (W ++ T) (bakName n) = some orig := by
    rw [lookup_append_none _ _ _ hlookWn]
    simp [hT, lookupFile]
  have hbackup : backupFiles (W ++ T) n = (false, W ++ T) := by
    simp [backupFiles, hFn, hFbak]
  have hWfak : lookupFile W "fakenvapi.dll" = none := by
    rw [hW, lookup_writeFile_ne _ _ _ _ (Ne.symm hfa)]; exact hfak
  have hWnv : lookupFile W "nvngx.dll" = none := by
    rw [hW, lookup_writeFile_ne _ _ _ _ (Ne.symm hnvn)]; exact hnv
  have hWlib : lookupFile W "libxess.dll" = none := by
    rw [hW, lookup_writeFile_ne _ _ _ _ (Ne.symm hli)]; exact hlib
  have hWini : lookupFile W "OptiScaler.ini" = none := by
    rw [hW, lookup_writeFile_ne _ _ _ _ (Ne.symm hni)]; exact hini
  refine ⟨hbackup, hFbak, ?_⟩
  have hprim : installPrimary (W ++ T) b.optiscalerDll n = W ++ T := by
    unfold installPrimary
    simp only [hFn, Option.isSome_some, if_true, hbackup]
    rw [writeFile_append_left _ _ _ _ (by simp [hWn])]
    congr 1
    rw [hW, writeFile_writeFile]
  have ha1 : writeFile (W ++ T) "fakenvapi.dll" b.fakenvapiDll = W ++ T := by
    rw [writeFile_append_right _ _ _ _ hWfak]
    congr 1
    simp [hT, writeFile, hbfak]
  have ha2 : writeFile (W ++ T) "nvngx.dll" b.nvngxDll = W ++ T := by
    rw [writeFile_append_right _ _ _ _ hWnv]
    congr 1
    simp [hT, writeFile, hbnv, (by decide : ("fakenvapi.dll" : String) ≠ "nvngx.dll")]
  have ha3 : writeFile (W ++ T) "libxess.dll" b.libxessDll = W ++ T := by
    rw [writeFile_append_right _ _ _ _ hWlib]
    congr 1
    simp [hT, writeFile, hbli, (by decide : ("fakenvapi.dll" : String) ≠ "libxess.dll"),
      (by decide : ("nvngx.dll" : String) ≠ "libxess.dll")]
  have ha4 : writeFile (W ++ T) "OptiScaler.ini"
      (renderIni (applyOverrides b.optiscalerIni ov)) = W ++ T := by
    rw [writeFile_append_right _ _ _ _ hWini]
    congr 1
    simp [hT, writeFile, hbini, (by decide : ("fakenvapi.dll" : String) ≠ "OptiScaler.ini"),
      (by decide : ("nvngx.dll" : String) ≠ "OptiScaler.ini"),
      (by decide : ("libxess.dll" : String) ≠ "OptiScaler.ini")]
  unfold installFiles installAux
  rw [hprim, ha1, ha2, ha3, ha4]

/-- C2 (amended): on a pristine target directory (no backup-suffixed files,
no installer-owned files, no plugin-directory backup) that contains an
existing file at the chosen allow-listed primary-module name and an existing
plugins directory, `install` followed by a second `install` followed by
`uninstall` restores the exact pre-first-install state: the second install has a
backup attempt that is a no-op returning failure, the backup created by the first
install still holds the true original afterwards, the second install leaves
the installed state completely unchanged, and the final uninstall restores
the original directory. -/
theorem double_install_uninstall (d : FSDir) (b : SourceBundle) (n : String)
    (ov : Overrides) (orig : String) (pl : Files)
    (hval : n ∈ OPTISCALER_VALID_DLL_NAMES)
    (horig : lookupFile d.files n = some orig)
    (hnb : ∀ p ∈ d.files, isBakName p.1 = false)
    (hini : lookupFile d.files "OptiScaler.ini" = none)
    (hfak : lookupFile d.files "fakenvapi.dll" = none)
    (hnv : lookupFile d.files "nvngx.dll" = none)
    (hlib : lookupFile d.files "libxess.dll" = none)
    (hpl : d.plugins = some pl)
    (hpb : d.pluginsBak = none) :
    (install_optiscaler (some d) (some b) n ov).ok = true ∧
    ∀ d5, (install_optiscaler (some d) (some b) n ov).state = some d5 →
      backup_file d5 n = (false, d5) ∧
      lookupFile d5.files (bakName n) = some orig ∧
      install_optiscaler (some d5) (some b) n ov
        = ⟨true, some d5, (install_optiscaler (some d) (some b) n ov).overrideCalls⟩ ∧
      uninstall_optiscaler (some d5) = (true, some d) := by
  have hstate : install_optiscaler (some d) (some b) n ov
      = ⟨true, some (installPlugins { d with files := installFiles d.files b n ov } b),
          if strEndsWith n ".dll" then [(n.dropRight 4, OverrideOrder.native)]
          else []⟩ := by
    simp [install_optiscaler, hval]
  obtain ⟨hbackup, hFbak, hsecond⟩ :=
    installFiles_second d.files b n ov orig hval hnb hini hfak hnv hlib
  have hF := installFiles_eq d.files b n ov orig hval horig hnb hini hfak hnv hlib
  have hd5 : installPlugins { d with files := installFiles d.files b n ov } b
      = ⟨installFiles d.files b n ov, some b.plugins, some pl⟩ :=
    installPlugins_eq_some d b _ pl hpl hpb
  have huf : uninstallFiles (writeFile d.files n b.optiscalerDll ++
      [(bakName n, orig), ("fakenvapi.dll", b.fakenvapiDll),
       ("nvngx.dll", b.nvngxDll), ("libxess.dll", b.libxessDll),
       ("OptiScaler.ini", renderIni (applyOverrides b.optiscalerIni ov))]) = d.files :=
    uninstallFiles_eq d.files n orig _ _ _ _ _ hval horig hnb hini hfak hnv hlib
  have hback2d : (⟨d.files, some pl, none⟩ : FSDir) = d := by rw [← hpl, ← hpb]
  refine ⟨by rw [hstate], ?_⟩
  intro d5 h5
  rw [hstate] at h5
  simp only [Option.some.injEq] at h5
  subst h5
  rw [hd5, hF]
  refine ⟨?_, ?_, ?_, ?_⟩
  · simp only [backup_file, hbackup]
  · exact hFbak
  · rw [hstate]
    simp [install_optiscaler, hval, installPlugins, hsecond]
  · simp only [uninstall_optiscaler, uninstall_core, uninstallPlugins, huf,
      Prod.mk.injEq, true_and, Option.some.injEq]
    exact hback2d

/-- C2 counterexample: on the target directory holding only `dxgi.dll` and no
plugins directory, install followed by a second install followed by uninstall
does not restore the pre-first-install state: the second install backs up the
plugins directory that the first install created, so the final uninstall
reinstates a plugins directory holding bundle content that the original
directory never had. -/
theorem double_install_counterexample :
    (uninstall_optiscaler (install_optiscaler
        (install_optiscaler (some testDir) (some testBundle) "dxgi.dll" []).state
        (some testBundle) "dxgi.dll" []).state).2 ≠ some testDir := by decide

/-- C5: when the target directory has a live plugins directory and no
plugin-directory backup, install backs the plugin directory up wholesale
byte-for-byte under the reserved-suffix name and replaces the live plugin
directory with the bundle plugin directory; a subsequent uninstall deletes the installed
plugin directory, moves the backup back into place as the live plugin
directory and leaves no plugin backup behind; and an uninstall that finds no
plugin backup deletes any live plugin directory outright. -/
theorem plugins_backup_spec (d : FSDir) (b : SourceBundle) (n : String)
    (ov : Overrides) (pl : Files)
    (hval : n ∈ OPTISCALER_VALID_DLL_NAMES)
    (hpl : d.plugins = some pl)
    (hpb : d.pluginsBak = none) :
    (install_optiscaler (some d) (some b) n ov).ok = true ∧
    (∀ d5, (install_optiscaler (some d) (some b) n ov).state = some d5 →
      d5.pluginsBak = some pl ∧
      d5.plugins = some b.plugins ∧
      (uninstall_core d5).plugins = some pl ∧
      (uninstall_core d5).pluginsBak = none) ∧
    (∀ e : FSDir, e.pluginsBak = none →
      (uninstall_core e).plugins = none ∧ (uninstall_core e).pluginsBak = none) := by
  have hstate : install_optiscaler (some d) (some b) n ov
      = ⟨true, some (installPlugins { d with files := installFiles d.files b n ov } b),
          if strEndsWith n ".dll" then [(n.dropRight 4, OverrideOrder.native)]
          else []⟩ := by
    simp [install_optiscaler, hval]
  have hd5 : installPlugins { d with files := installFiles d.files b n ov } b
      = ⟨installFiles d.files b n ov, some b.plugins, some pl⟩ :=
    installPlugins_eq_some d b _ pl hpl hpb
  refine ⟨by rw [hstate], ?_, ?_⟩
  · intro d5 h5
    rw [hstate] at h5
    simp only [Option.some.injEq] at h5
    subst h5
    rw [hd5]
    exact ⟨rfl, rfl, by simp [uninstall_core, uninstallPlugins],
      by simp [uninstall_core, uninstallPlugins]⟩
  · intro e he
    unfold uninstall_core uninstallPlugins
    simp [he]

/-- C7: precondition failures perform no file-system writes: installing with
a primary-module name outside the fixed allow-list returns false with the
target directory and registrar-call list untouched; installing into a
nonexistent target directory returns false; uninstalling a nonexistent
target directory returns false with no action taken. -/
theorem precondition_failures (d : FSDir) (src : Option SourceBundle)
    (dll : String) (ov : Overrides)
    (hdll : dll ∉ OPTISCALER_VALID_DLL_NAMES) :
    install_optiscaler (some d) src dll ov = ⟨false, some d, []⟩ ∧
    (∀ src2 dll2 ov2, install_optiscaler none src2 dll2 ov2 = ⟨false, none, []⟩) ∧
    uninstall_optiscaler none = (false, none) := by
  refine ⟨?_, fun src2 dll2 ov2 => rfl, rfl⟩
  simp [install_optiscaler, hdll]

/-- C8: a successful install with a library-style (.dll) allow-listed name
calls the library-resolution registrar exactly once, with the base name (the
file name less its .dll extension) and the prefer-native ordering token;
installing the alternate loader-extension form OptiScaler.asi succeeds
without any registrar call. -/
theorem override_registrar_spec (d : FSDir) (b : SourceBundle) (n : String)
    (ov : Overrides)
    (hval : n ∈ OPTISCALER_VALID_DLL_NAMES)
    (hlib : n ≠ "OptiScaler.asi") :
    (install_optiscaler (some d) (some b) n ov).ok = true ∧
    (install_optiscaler (some d) (some b) n ov).overrideCalls
      = [(n.dropRight 4, OverrideOrder.native)] ∧
    (install_optiscaler (some d) (some b) "OptiScaler.asi" ov).ok = true ∧
    (install_optiscaler (some d) (some b) "OptiScaler.asi" ov).overrideCalls = [] := by
  have hdll : strEndsWith n ".dll" = true := by
    have hall : ∀ m ∈ OPTISCALER_VALID_DLL_NAMES, m ≠ "OptiScaler.asi" →
        strEndsWith m ".dll" = true := by decide
    exact hall n hval hlib
  have hasi : strEndsWith "OptiScaler.asi" ".dll" = false := by decide
  have hasimem : "OptiScaler.asi" ∈ OPTISCALER_VALID_DLL_NAMES := by decide
  refine ⟨?_, ?_, ?_, ?_⟩ <;> simp [install_optiscaler, hval, hdll, hasi, hasimem]

/-- C9: uninstall on an existing target directory succeeds and afterwards no
file whose name matches the reserved backup-suffix convention remains
directly inside the target directory, including orphaned backups unrelated
to the files this uninstall otherwise touched. -/
theorem uninstall_cleans_backups (d : FSDir) :
    (uninstall_optiscaler (some d)).1 = true ∧
    (uninstall_optiscaler (some d)).2 = some (uninstall_core d) ∧
    ∀ p ∈ (uninstall_core d).files, isBakName p.1 = false := by
  refine ⟨rfl, rfl, ?_⟩
  have h1 : (uninstall_core d).files = uninstallFiles d.files := by
    unfold uninstall_core
    rw [uninstallPlugins_files]
  rw [h1]
  unfold uninstallFiles
  exact removeBakFiles_clean _

/-- C10: the fixed allow-list of acceptable primary-module install names is
exactly the eight names asserted by the unit tests, of which OptiScaler.asi
is the only non-library (non-.dll) form, and install (on an existing target
with an available bundle) accepts a name iff it belongs to the allow-list. -/
theorem valid_dll_names_spec :
    (∀ m, m ∈ OPTISCALER_VALID_DLL_NAMES ↔
      (m = "dxgi.dll" ∨ m = "winmm.dll" ∨ m = "version.dll" ∨ m = "dbghelp.dll" ∨
       m = "d3d12.dll" ∨ m = "wininet.dll" ∨ m = "winhttp.dll" ∨
       m = "OptiScaler.asi")) ∧
    (∀ m ∈ OPTISCALER_VALID_DLL_NAMES, m ≠ "OptiScaler.asi" →
      strEndsWith m ".dll" = true) ∧
    strEndsWith "OptiScaler.asi" ".dll" = false ∧
    (∀ d b dll ov, ((install_optiscaler (some d) (some b) dll ov).ok = true ↔
      dll ∈ OPTISCALER_VALID_DLL_NAMES)) := by
  refine ⟨?_, by decide, by decide, ?_⟩
  · intro m
    simp [OPTISCALER_VALID_DLL_NAMES]
  · intro d b dll ov
    by_cases h : dll ∈ OPTISCALER_VALID_DLL_NAMES <;>
      simp [install_optiscaler, h]

/-- Witness for C1 at the concrete pristine directory and source bundle of
the unit tests. -/
theorem install_uninstall_roundtrip_witness :
    ("dxgi.dll" ∈ OPTISCALER_VALID_DLL_NAMES ∧
     lookupFile testDir.files "dxgi.dll" = some "original game dll" ∧
     (∀ p ∈ testDir.files, isBakName p.1 = false) ∧
     lookupFile testDir.files "OptiScaler.ini" = none ∧
     lookupFile testDir.files "fakenvapi.dll" = none ∧
     lookupFile testDir.files "nvngx.dll" = none ∧
     lookupFile testDir.files "libxess.dll" = none ∧
     testDir.pluginsBak = none) ∧
    ((install_optiscaler (some testDir) (some testBundle) "dxgi.dll"
        testOverrides).ok = true ∧
     ∀ d5, (install_optiscaler (some testDir) (some testBundle) "dxgi.dll"
        testOverrides).state = some d5 →
       uninstall_optiscaler (some d5) = (true, some testDir) ∧
       (∀ p ∈ (uninstall_core d5).files, isBakName p.1 = false) ∧
       (uninstall_core d5).pluginsBak = none) :=
  ⟨⟨by decide, by decide, by decide, by decide, by decide, by decide, by decide, rfl⟩,
   install_uninstall_roundtrip testDir testBundle "dxgi.dll" testOverrides
     "original game dll" (by decide) (by decide) (by decide) (by decide)
     (by decide) (by decide) (by decide) rfl⟩

/-- Witness for the amended C2 at the test directory extended with a
pre-existing plugins directory. -/
theorem double_install_uninstall_witness :
    ("dxgi.dll" ∈ OPTISCALER_VALID_DLL_NAMES ∧
     lookupFile testDirPlugins.files "dxgi.dll" = some "original game dll" ∧
     (∀ p ∈ testDirPlugins.files, isBakName p.1 = false) ∧
     lookupFile testDirPlugins.files "OptiScaler.ini" = none ∧
     lookupFile testDirPlugins.files "fakenvapi.dll" = none ∧
     lookupFile testDirPlugins.files "nvngx.dll" = none ∧
     lookupFile testDirPlugins.files "libxess.dll" = none ∧
     testDirPlugins.plugins = some [("original_plugin.dll", "original plugin")] ∧
     testDirPlugins.pluginsBak = none) ∧
    ((install_optiscaler (some testDirPlugins) (some testBundle) "dxgi.dll"
        testOverrides).ok = true ∧
     ∀ d5, (install_optiscaler (some testDirPlugins) (some testBundle) "dxgi.dll"
        testOverrides).state = some d5 →
       backup_file d5 "dxgi.dll" = (false, d5) ∧
       lookupFile d5.files (bakName "dxgi.dll") = some "original game dll" ∧
       install_optiscaler (some d5) (some testBundle) "dxgi.dll" testOverrides
         = ⟨true, some d5, (install_optiscaler (some testDirPlugins)
             (some testBundle) "dxgi.dll" testOverrides).overrideCalls⟩ ∧
       uninstall_optiscaler (some d5) = (true, some testDirPlugins)) :=
  ⟨⟨by decide, by decide, by decide, by decide, by decide, by decide, by decide,
     rfl, rfl⟩,
   double_install_uninstall testDirPlugins testBundle "dxgi.dll" testOverrides
     "original game dll" [("original_plugin.dll", "original plugin")]
     (by decide) (by decide) (by decide) (by decide) (by decide) (by decide)
     (by decide) rfl rfl⟩

/-- Witness for C5 at the test directory with a pre-existing plugins
directory. -/
theorem plugins_backup_spec_witness :
    ("dxgi.dll" ∈ OPTISCALER_VALID_DLL_NAMES ∧
     testDirPlugins.plugins = some [("original_plugin.dll", "original plugin")] ∧
     testDirPlugins.pluginsBak = none) ∧
    ((install_optiscaler (some testDirPlugins) (some testBundle) "dxgi.dll"
        []).ok = true ∧
     (∀ d5, (install_optiscaler (some testDirPlugins) (some testBundle) "dxgi.dll"
        []).state = some d5 →
       d5.pluginsBak = some [("original_plugin.dll", "original plugin")] ∧
       d5.plugins = some testBundle.plugins ∧
       (uninstall_core d5).plugins
         = some [("original_plugin.dll", "original plugin")] ∧
       (uninstall_core d5).pluginsBak = none) ∧
     (∀ e : FSDir, e.pluginsBak = none →
       (uninstall_core e).plugins = none ∧ (uninstall_core e).pluginsBak = none)) :=
  ⟨⟨by decide, rfl, rfl⟩,
   plugins_backup_spec testDirPlugins testBundle "dxgi.dll" []
     [("original_plugin.dll", "original plugin")] (by decide) rfl rfl⟩

/-- Witness for C7 at the invalid install name used by the unit tests. -/
theorem precondition_failures_witness :
    ("invalid.dll" ∉ OPTISCALER_VALID_DLL_NAMES) ∧
    (install_optiscaler (some testDir) (some testBundle) "invalid.dll" []
       = ⟨false, some testDir, []⟩ ∧
     (∀ src2 dll2 ov2, install_optiscaler none src2 dll2 ov2 = ⟨false, none, []⟩) ∧
     uninstall_optiscaler none = (false, none)) :=
  ⟨by decide,
   precondition_failures testDir (some testBundle) "invalid.dll" [] (by decide)⟩

/-- Witness for C8 at the library-style name dxgi.dll. -/
theorem override_registrar_spec_witness :
    ("dxgi.dll" ∈ OPTISCALER_VALID_DLL_NAMES ∧ "dxgi.dll" ≠ "OptiScaler.asi") ∧
    ((install_optiscaler (some testDir) (some testBundle) "dxgi.dll" []).ok = true ∧
     (install_optiscaler (some testDir) (some testBundle) "dxgi.dll"
        []).overrideCalls = [("dxgi", OverrideOrder.native)] ∧
     (install_optiscaler (some testDir) (some testBundle) "OptiScaler.asi"
        []).ok = true ∧
     (install_optiscaler (some testDir) (some testBundle) "OptiScaler.asi"
        []).overrideCalls = []) := by
  have h := override_registrar_spec testDir testBundle "dxgi.dll" []
    (by decide) (by decide)
  exact ⟨⟨by decide, by decide⟩, by simpa using h⟩

end OptiScaler
